import Mathlib

/-!
Verification development for the s3-proxy gateway (request admission and
routing layer). The definitions below are a shallow embedding of the Rust
sources: `config.rs`, `error.rs`, `auth.rs`, `server.rs`, `s3.rs`. Hash maps
become association lists (for a fixed map value, iteration order is stable),
`Instant` timestamps become natural numbers (one unit per second, window = 60),
header values become byte lists, and fallible code returns `Except`.
-/

/-- HTTP method, as far as the gateway inspects it (`request.method()`). -/
inductive Method where
  | GET
  | PUT
  | POST
  | DELETE
  | HEAD
deriving DecidableEq, Repr

/-- Inbound request as seen by the middleware: method, URI path, and headers.
Header names are stored lowercase (the http crate canonicalizes them); header
values are raw byte lists, since `HeaderValue` is not necessarily a string. -/
structure Request where
  method : Method
  path : String
  headers : List (String × List Nat)
deriving DecidableEq, Repr

/-- Outbound response: status code, headers and body. -/
structure Response where
  status : Nat
  headers : List (String × String)
  body : String
deriving DecidableEq, Repr

/-- From config.rs: `UserRole` with serde lowercase names. -/
inductive UserRole where
  | admin
  | user
  | readonly
deriving DecidableEq, Repr

/-- From config.rs: `AccountConfig`. -/
structure AccountConfig where
  endpoint_url : String
  region : String
  access_key_id : String
  secret_access_key : String
  buckets : List String
deriving DecidableEq, Repr

/-- From config.rs: `UserConfig`. -/
structure UserConfig where
  api_key : String
  role : UserRole
  allowed_buckets : List String
deriving DecidableEq, Repr

/-- From config.rs: `ServerConfig`. -/
structure ServerConfig where
  port : Nat
  host : String
deriving DecidableEq, Repr

/-- From config.rs: `Config`. The two `HashMap`s become association lists;
for a fixed map value the iteration order seen by `iter().find` is stable. -/
structure Config where
  accounts : List (String × AccountConfig)
  users : List (String × UserConfig)
  server : ServerConfig
  max_file_size : Nat
deriving DecidableEq, Repr

/-- From error.rs: `AppError`. The opaque AWS SDK error payloads are modelled
as their display strings. The `Unauthorized` and `InvalidRequest` variants are
modelled from the spec: error.rs as provided does not declare them although
auth.rs constructs both; spec section 7 lists them in the error taxonomy. -/
inductive AppError where
  | S3Error (msg : String)
  | ListObjectsError (msg : String)
  | GetObjectError (msg : String)
  | PutObjectError (msg : String)
  | BucketNotFound (bucket : String)
  | ObjectNotFound (bucket : String) (key : String)
  | ConfigError (msg : String)
  | InternalError (msg : String)
  | Unauthorized (msg : String)
  | InvalidRequest (msg : String)
deriving DecidableEq, Repr

/-- From error.rs `impl IntoResponse for AppError`: the error message chosen by
the match. For the spec-modelled `Unauthorized` and `InvalidRequest` variants
the message is the carried string, matching the messages auth.rs constructs
and the generic-message requirement of spec sections 4.2 and 7. -/
def AppError.error_message : AppError → String
  | .S3Error e => "S3 error: " ++ e
  | .ListObjectsError e => "S3 ListObjects error: " ++ e
  | .GetObjectError e => "S3 GetObject error: " ++ e
  | .PutObjectError e => "S3 PutObject error: " ++ e
  | .BucketNotFound bucket => "Bucket not found: " ++ bucket
  | .ObjectNotFound bucket key => "Object not found: " ++ bucket ++ "/" ++ key
  | .ConfigError e => "Configuration error: " ++ e
  | .InternalError e => e
  | .Unauthorized m => m
  | .InvalidRequest m => m

/-- From error.rs `impl IntoResponse for AppError`: the HTTP status chosen by
the match. Statuses for the spec-modelled `Unauthorized` and `InvalidRequest`
variants follow spec section 7: unauthorized maps to 401, invalid-request
maps to 400. -/
def AppError.status_code : AppError → Nat
  | .BucketNotFound _ => 404
  | .ObjectNotFound _ _ => 404
  | .Unauthorized _ => 401
  | .InvalidRequest _ => 400
  | .S3Error _ => 500
  | .ListObjectsError _ => 500
  | .GetObjectError _ => 500
  | .PutObjectError _ => 500
  | .ConfigError _ => 500
  | .InternalError _ => 500

/-- From error.rs `into_response`: the JSON body
`\x7b"error": "<message>", "status": <code>\x7d` with the content-type header
set to application/json on the final response. -/
def AppError.into_response (e : AppError) : Response :=
  { status := e.status_code
    headers := [("content-type", "application/json")]
    body := "\x7b\"error\": \"" ++ e.error_message ++ "\", \"status\": " ++
      toString e.status_code ++ "\x7d" }

/-- From config.rs: `Config::find_account_for_bucket`, scanning the accounts
map for the first account whose owned-bucket list contains the bucket. -/
def Config.find_account_for_bucket (c : Config) (bucket : String) :
    Option (String × AccountConfig) :=
  c.accounts.find? (fun p => p.2.buckets.contains bucket)

/-- From config.rs: `Config::find_user_by_api_key`. -/
def Config.find_user_by_api_key (c : Config) (api_key : String) :
    Option (String × UserConfig) :=
  c.users.find? (fun p => p.2.api_key == api_key)

/-- Lookup in the users map (`self.users.get(username)`). -/
def Config.get_user (c : Config) (username : String) : Option UserConfig :=
  (c.users.find? (fun p => p.1 == username)).map (fun p => p.2)

/-- From config.rs: `Config::is_bucket_allowed`. -/
def Config.is_bucket_allowed (c : Config) (username bucket : String) : Bool :=
  match c.get_user username with
  | some u => u.allowed_buckets.contains "*" || u.allowed_buckets.contains bucket
  | none => false

/-- From config.rs: `Config::can_write`; the `matches!` over the role. -/
def Config.can_write (c : Config) (username : String) : Bool :=
  match c.get_user username with
  | some u =>
    match u.role with
    | .admin => true
    | .user => true
    | .readonly => false
  | none => false

/-- Splitting a character list at a separator, with the semantics of the Rust
`str::split(char)`: always at least one (possibly empty) piece, an empty
input giving one empty piece, and a trailing separator giving a trailing
empty piece. -/
def split_char (sep : Char) : List Char → List (List Char)
  | [] => [[]]
  | c :: cs =>
    let r := split_char sep cs
    if c = sep then [] :: r
    else (c :: r.headD []) :: r.tail

/-- From http `HeaderValue::to_str`: a byte is allowed when it is visible
ASCII or horizontal tab. -/
def is_visible_ascii (b : Nat) : Bool :=
  (32 ≤ b && b < 127) || b == 9

/-- From http `HeaderValue::to_str`: succeeds exactly when every byte is
visible ASCII (or tab), giving the corresponding string. -/
def header_to_str (bytes : List Nat) : Option String :=
  if bytes.all is_visible_ascii then some (String.mk (bytes.map Char.ofNat))
  else none

/-- From Rust `u64::from_str` as used by `s.parse::<u64>()`: an optional
leading plus sign, then one or more ASCII digits, rejecting anything else and
rejecting values that overflow 64 bits. -/
def parse_u64 (s : String) : Option Nat :=
  let ds :=
    match s.toList with
    | '+' :: rest => rest
    | l => l
  if ds.isEmpty then none
  else if ds.all (fun c => c.isDigit) then
    let v := ds.foldl (fun a c => a * 10 + (c.toNat - 48)) 0
    if v < 2 ^ 64 then some v else none
  else none

/-- From auth.rs `validate_request`, path part: strip the leading slash if
present (`strip_prefix` of a slash; no check happens when the path does not
start with one), split the remainder on every slash, and reject when the
piece count is zero or exceeds two. -/
def check_path (req : Request) : Except AppError Unit :=
  match req.path.toList with
  | '/' :: rest =>
    let parts := split_char '/' rest
    if parts.isEmpty ∨ parts.length > 2 then
      .error (.InvalidRequest "Invalid path format")
    else .ok ()
  | _ => .ok ()

/-- From auth.rs `validate_request`: for PUT requests with a content-length
header whose value is a readable string parsing as a u64 above the configured
maximum, fail with the size message; in every other case fall through to the
path-shape check. -/
def validate_request (config : Config) (req : Request) : Except AppError Unit :=
  if req.method = .PUT then
    match req.headers.find? (fun p => p.1 == "content-length") with
    | some cl =>
      match header_to_str cl.2 with
      | some s =>
        match parse_u64 s with
        | some length =>
          if config.max_file_size < length then
            .error (.InvalidRequest ("File size " ++ toString length ++
              " exceeds maximum allowed size of " ++
              toString config.max_file_size ++ " bytes"))
          else check_path req
        | none => check_path req
      | none => check_path req
    | none => check_path req
  else check_path req

/-- From auth.rs `RateLimiter::is_rate_limited`, the retain step: keep the
timestamps strictly younger than the 60-second window. -/
def purge (now : Nat) (reqs : List Nat) : List Nat :=
  reqs.filter (fun t => now - t < 60)

/-- From auth.rs `RateLimiter::is_rate_limited`: purge, then report limited
without recording when the remaining count is at least 100, otherwise append
the current timestamp and report not limited. The returned pair is the
decision and the updated per-user timestamp list. -/
def is_rate_limited (now : Nat) (reqs : List Nat) : Bool × List Nat :=
  let reqs2 := purge now reqs
  if 100 ≤ reqs2.length then (true, reqs2)
  else (false, reqs2 ++ [now])

/-- Decisions produced by running the limiter on a sequence of call times for
one username, starting from a given recorded-timestamp list. -/
def run_limiter (reqs : List Nat) : List Nat → List Bool
  | [] => []
  | t :: ts =>
    let r := is_rate_limited t reqs
    r.1 :: run_limiter r.2 ts

/-- Recorded-timestamp list left by running the limiter on a sequence of call
times for one username. -/
def run_state (reqs : List Nat) : List Nat → List Nat
  | [] => reqs
  | t :: ts => run_state (is_rate_limited t reqs).2 ts

/-- Window hypothesis of the rate-limit claim: at every call, the number of
calls made so far (the current one included) whose time lies within the
trailing 60-second window of the current call is at most 100. -/
def window_bound (ts : List Nat) : Prop :=
  ∀ k, k < ts.length →
    ((ts.take (k + 1)).filter (fun s => ts.getD k 0 - s < 60)).length ≤ 100

instance (ts : List Nat) : Decidable (window_bound ts) := by
  unfold window_bound
  infer_instance

/-- Per-username rate-limiter table (the `HashMap<String, Vec<Instant>>`). -/
def rate_state_get (rl : List (String × List Nat)) (u : String) : List Nat :=
  ((rl.find? (fun p => p.1 == u)).map (fun p => p.2)).getD []

/-- Write-back of one username entry (`entry(...).or_default()` then mutate). -/
def rate_state_set (rl : List (String × List Nat)) (u : String) (v : List Nat) :
    List (String × List Nat) :=
  if rl.any (fun p => p.1 == u) then
    rl.map (fun p => if p.1 == u then (u, v) else p)
  else rl ++ [(u, v)]

/-- One `RATE_LIMITER.write().await.is_rate_limited(&username)` call against
the shared table. -/
def rate_check (now : Nat) (rl : List (String × List Nat)) (u : String) :
    Bool × List (String × List Nat) :=
  let r := is_rate_limited now (rate_state_get rl u)
  (r.1, rate_state_set rl u r.2)

/-- From auth.rs `AuthState`, the extension inserted for downstream handlers;
role is the `format!` debug rendering of the role. -/
structure AuthState where
  username : String
  role : String
deriving DecidableEq, Repr

/-- Debug rendering of `UserRole` (`format!` with the Debug formatter). -/
def UserRole.debugStr : UserRole → String
  | .admin => "Admin"
  | .user => "User"
  | .readonly => "Readonly"

/-- From auth.rs `auth_middleware`: extraction of the x-api-key header,
`headers().get` then `to_str().ok()`. -/
def get_api_key (req : Request) : Option String :=
  (req.headers.find? (fun p => p.1 == "x-api-key")).bind
    (fun p => header_to_str p.2)

/-- Association-list insert with the replacement behavior of
`HeaderMap::insert`: any existing entry for the name is dropped and the new
pair recorded. -/
def header_insert (hs : List (String × String)) (k v : String) :
    List (String × String) :=
  hs.filter (fun p => p.1 != k) ++ [(k, v)]

/-- Header lookup by name. -/
def header_get (hs : List (String × String)) (k : String) : Option String :=
  (hs.find? (fun p => p.1 == k)).map (fun p => p.2)

/-- From auth.rs `auth_middleware`, the four header insertions performed on
the response returned by `next.run`. -/
def add_secure_headers (r : Response) : Response :=
  { r with headers := header_insert (header_insert (header_insert (header_insert r.headers "X-Content-Type-Options" "nosniff") "X-Frame-Options" "DENY") "X-XSS-Protection" "1; mode=block") "Strict-Transport-Security" "max-age=31536000; includeSubDomains" }

/-- From auth.rs `auth_middleware`: validation, api-key extraction, identity
lookup, rate-limit admission, then the downstream handler (`next`, given the
request and the inserted `AuthState` extension) with the security headers
added to its response. Returns the middleware outcome and the updated
rate-limiter table; an error outcome short-circuits before `next` runs. -/
def auth_middleware (config : Config) (now : Nat)
    (rl : List (String × List Nat)) (req : Request)
    (next : Request → AuthState → Response) :
    Except AppError Response × List (String × List Nat) :=
  match validate_request config req with
  | .error e => (.error e, rl)
  | .ok _ =>
    match get_api_key req with
    | none => (.error (.Unauthorized "No API key provided"), rl)
    | some api_key =>
      match config.find_user_by_api_key api_key with
      | none => (.error (.Unauthorized "Invalid API key"), rl)
      | some (username, user) =>
        let r := rate_check now rl username
        if r.1 then (.error (.InvalidRequest "Rate limit exceeded"), r.2)
        else
          let resp := next req { username := username, role := user.role.debugStr }
          (.ok (add_secure_headers resp), r.2)

/-- Response delivered to the client: the middleware result, with a
middleware error converted by `IntoResponse for AppError` (axum converts the
returned `Err` this way; the security-header insertions of the success path
are not applied to it). -/
def middleware_response (config : Config) (now : Nat)
    (rl : List (String × List Nat)) (req : Request)
    (next : Request → AuthState → Response) : Response :=
  match (auth_middleware config now rl req next).1 with
  | .ok r => r
  | .error e => e.into_response

/-- From auth.rs `check_bucket_access`. -/
def check_bucket_access (c : Config) (username bucket : String) :
    Except AppError Unit :=
  if !(c.is_bucket_allowed username bucket) then
    .error (.Unauthorized ("Not allowed to access bucket: " ++ bucket))
  else .ok ()

/-- From auth.rs `check_write_permission`. -/
def check_write_permission (c : Config) (username : String) :
    Except AppError Unit :=
  if !(c.can_write username) then
    .error (.Unauthorized "Write permission denied")
  else .ok ()

/-- From server.rs `AppState`: configuration plus the per-account client
table; the opaque `Arc<S3Client>` handles are modelled as numbers. -/
structure AppState where
  config : Config
  clients : List (String × Nat)
deriving DecidableEq, Repr

/-- From server.rs `AppState::get_account_and_client`: resolve the owning
account for the bucket (reporting `BucketNotFound` when no account claims
it), then fetch the client for the account identifier (reporting an internal
error when the client table misses it). -/
def AppState.get_account_and_client (st : AppState) (bucket : String) :
    Except AppError (String × Nat) :=
  match st.config.find_account_for_bucket bucket with
  | none => .error (.BucketNotFound bucket)
  | some (account_id, _account_config) =>
    match st.clients.find? (fun p => p.1 == account_id) with
    | none => .error (.InternalError "S3 client not found")
    | some (_, client) => .ok (account_id, client)

/-- From server.rs `put_object`: bucket-access gate, write-permission gate,
account and client resolution, then the single backend upload. The success
value is the backend call the handler dispatches (account, bucket, key); an
error value means the handler returns before any backend call. -/
def put_object (st : AppState) (username bucket key : String) :
    Except AppError (String × String × String) :=
  match check_bucket_access st.config username bucket with
  | .error e => .error e
  | .ok _ =>
    match check_write_permission st.config username with
    | .error e => .error e
    | .ok _ =>
      match st.get_account_and_client bucket with
      | .error e => .error e
      | .ok (account_id, _client) => .ok (account_id, bucket, key)

/-- From the AWS SDK `ListObjectsV2` response, the two fields the loop in
s3.rs reads: the optional object batch and the optional continuation token.
Objects are kept abstract in the element type. -/
structure ListPage (α : Type) where
  contents : Option (List α)
  next_continuation_token : Option String
deriving DecidableEq, Repr

/-- From s3.rs `S3Client::list_objects`: the aggregation loop, with the
backend modelled as the sequence of pages successive `send` calls return.
Each iteration extends the accumulator with the page contents (if any) and
stops exactly when the page carries no next continuation token; if the
supplied page sequence runs out first, the modelled loop reports `none`
(the Rust loop would keep issuing backend calls). -/
def list_objects_loop {α : Type} : List (ListPage α) → List α → Option (List α)
  | [], _ => none
  | p :: ps, objects =>
    let objects2 := objects ++ p.contents.getD []
    match p.next_continuation_token with
    | none => some objects2
    | some _ => list_objects_loop ps objects2

/-- Test account owning bucket b1. -/
def acct1 : AccountConfig :=
  { endpoint_url := "http://e", region := "r", access_key_id := "ak",
    secret_access_key := "sk", buckets := ["b1"] }

/-- Test identity with the wildcard pattern and role admin. -/
def user_alice : UserConfig :=
  { api_key := "secret", role := .admin, allowed_buckets := ["*"] }

/-- Test identity with the exact pattern set b1 and role readonly. -/
def user_bob : UserConfig :=
  { api_key := "bobkey", role := .readonly, allowed_buckets := ["b1"] }

/-- Test identity with the exact pattern set b1 and role user. -/
def user_carol : UserConfig :=
  { api_key := "carolkey", role := .user, allowed_buckets := ["b1"] }

/-- Test configuration. -/
def cfg0 : Config :=
  { accounts := [("acct1", acct1)]
    users := [("alice", user_alice), ("bob", user_bob), ("carol", user_carol)]
    server := { port := 8080, host := "0.0.0.0" }
    max_file_size := 104857600 }

/-- Test application state: one account client registered. -/
def st0 : AppState := { config := cfg0, clients := [("acct1", 7)] }

/-- Trivial downstream handler used in concrete runs. -/
def next0 : Request → AuthState → Response := fun _ _ => ⟨200, [], "ok"⟩

/-- C2: the spec says the request path, stripped of the leading separator,
is accepted with one segment (list) or two segments where the key is the
remainder and may contain slashes, and that the empty stripped path fails.
The code instead splits on every slash and rejects more than two pieces, so
the slash-containing key "a/b" is rejected with the format reason, while the
empty stripped path yields the single piece list with one empty string and
passes. This theorem records the code behavior at those inputs. -/
theorem path_validation_code_behavior :
    check_path ⟨Method.GET, "/mybucket", []⟩ = .ok () ∧
    check_path ⟨Method.GET, "/mybucket/a", []⟩ = .ok () ∧
    check_path ⟨Method.GET, "/mybucket/a/b", []⟩ =
      .error (.InvalidRequest "Invalid path format") ∧
    validate_request cfg0 ⟨Method.GET, "/mybucket/a/b", []⟩ =
      .error (.InvalidRequest "Invalid path format") ∧
    check_path ⟨Method.GET, "/", []⟩ = .ok () :=
  ⟨rfl, rfl, rfl, rfl, rfl⟩

/-- C7: every error kind maps to its specified HTTP status (not-found kinds
to 404, unauthorized to 401, invalid-request to 400, backend and internal
faults to 500), and every error response body is the JSON document with the
error message and a status field equal to the HTTP status. -/
theorem error_status_and_body_mapping :
    (∀ b, (AppError.BucketNotFound b).into_response.status = 404) ∧
    (∀ b k, (AppError.ObjectNotFound b k).into_response.status = 404) ∧
    (∀ m, (AppError.Unauthorized m).into_response.status = 401) ∧
    (∀ m, (AppError.InvalidRequest m).into_response.status = 400) ∧
    (∀ m, (AppError.S3Error m).into_response.status = 500) ∧
    (∀ m, (AppError.ListObjectsError m).into_response.status = 500) ∧
    (∀ m, (AppError.GetObjectError m).into_response.status = 500) ∧
    (∀ m, (AppError.PutObjectError m).into_response.status = 500) ∧
    (∀ m, (AppError.ConfigError m).into_response.status = 500) ∧
    (∀ m, (AppError.InternalError m).into_response.status = 500) ∧
    (∀ e : AppError, e.into_response.body =
      "\x7b\"error\": \"" ++ e.error_message ++ "\", \"status\": " ++
        toString e.into_response.status ++ "\x7d") := by
  refine ⟨fun b => rfl, fun b k => rfl, fun m => rfl, fun m => rfl, fun m => rfl,
    fun m => rfl, fun m => rfl, fun m => rfl, fun m => rfl, fun m => rfl,
    fun e => ?_⟩
  cases e <;> rfl

/-- C3: for an identity present in the store, bucket visibility holds exactly
when the permitted-pattern set contains the wildcard or the exact bucket
name; the wildcard admits every bucket, the exact set b1 denies b2, and a
denial carries a reason naming the bucket. -/
theorem bucket_visibility_pattern_set (c : Config) (username bucket : String)
    (u : UserConfig) (hu : c.get_user username = some u) :
    (c.is_bucket_allowed username bucket = true ↔
      ("*" ∈ u.allowed_buckets ∨ bucket ∈ u.allowed_buckets)) ∧
    ("*" ∈ u.allowed_buckets → c.is_bucket_allowed username bucket = true) ∧
    (u.allowed_buckets = ["b1"] → bucket = "b2" →
      c.is_bucket_allowed username bucket = false) ∧
    (c.is_bucket_allowed username bucket = false →
      check_bucket_access c username bucket =
        .error (.Unauthorized ("Not allowed to access bucket: " ++ bucket))) := by
  have hb : c.is_bucket_allowed username bucket =
      (u.allowed_buckets.contains "*" || u.allowed_buckets.contains bucket) := by
    unfold Config.is_bucket_allowed
    rw [hu]
  refine ⟨?_, ?_, ?_, ?_⟩
  · rw [hb]; simp
  · intro hw; rw [hb]; simp [hw]
  · intro h1 h2; rw [hb, h1, h2]; decide
  · intro h; unfold check_bucket_access; rw [h]; rfl

/-- Witness for C3 at concrete inputs: the wildcard identity alice sees any
bucket, the exact-set identity bob is denied b2 with the reason naming b2. -/
theorem bucket_visibility_pattern_set_witness :
    cfg0.is_bucket_allowed "alice" "anybucket" = true ∧
    cfg0.is_bucket_allowed "bob" "b2" = false ∧
    check_bucket_access cfg0 "bob" "b2" =
      .error (.Unauthorized "Not allowed to access bucket: b2") := by
  have ha := bucket_visibility_pattern_set cfg0 "alice" "anybucket" user_alice rfl
  have hb := bucket_visibility_pattern_set cfg0 "bob" "b2" user_bob rfl
  have hb1 := hb.2.2.1 rfl rfl
  exact ⟨ha.2.1 (by decide), hb1, hb.2.2.2 hb1⟩

/-- C9: account resolution is a pure function of the registry value and the
bucket: repeated calls agree; when no account claims the bucket the lookup is
empty and the pipeline reports BucketNotFound; when the lookup succeeds, the
returned account claims the bucket. -/
theorem resolve_account_deterministic (st : AppState) (bucket : String) :
    (st.config.find_account_for_bucket bucket =
      st.config.find_account_for_bucket bucket) ∧
    ((∀ p ∈ st.config.accounts, bucket ∉ p.2.buckets) →
      st.config.find_account_for_bucket bucket = none ∧
      st.get_account_and_client bucket = .error (.BucketNotFound bucket)) ∧
    (∀ account_id acct,
      st.config.find_account_for_bucket bucket = some (account_id, acct) →
      bucket ∈ acct.buckets) := by
  refine ⟨rfl, ?_, ?_⟩
  · intro h
    have hn : st.config.find_account_for_bucket bucket = none := by
      unfold Config.find_account_for_bucket
      rw [List.find?_eq_none]
      intro p hp
      simpa using h p hp
    refine ⟨hn, ?_⟩
    unfold AppState.get_account_and_client
    rw [hn]
  · intro account_id acct hf
    have hc := List.find?_some hf
    simpa using hc

/-- Witness for C9 at a concrete input: no account of the test registry
claims the bucket nosuch, and resolution reports BucketNotFound. -/
theorem resolve_account_deterministic_witness :
    cfg0.find_account_for_bucket "nosuch" = none ∧
    st0.get_account_and_client "nosuch" = .error (.BucketNotFound "nosuch") :=
  (resolve_account_deterministic st0 "nosuch").2.1 (by decide)

/-- C4: for an identity present in the store, write permission holds exactly
when the role is Admin or User; a Readonly identity is denied the write with
the write-permission reason even when bucket visibility passes, and a put
that reaches the backend call has passed both gates. -/
theorem write_permission_role_gate (st : AppState) (username bucket key : String)
    (u : UserConfig) (hu : st.config.get_user username = some u) :
    (st.config.can_write username = true ↔
      (u.role = .admin ∨ u.role = .user)) ∧
    (u.role = .readonly → st.config.is_bucket_allowed username bucket = true →
      put_object st username bucket key =
        .error (.Unauthorized "Write permission denied")) ∧
    (u.role = .readonly → ∀ call, put_object st username bucket key ≠ .ok call) ∧
    (∀ call, put_object st username bucket key = .ok call →
      st.config.is_bucket_allowed username bucket = true ∧
      st.config.can_write username = true) := by
  have hw : st.config.can_write username =
      (match u.role with | .admin => true | .user => true | .readonly => false) := by
    unfold Config.can_write
    rw [hu]
  have h1 : st.config.can_write username = true ↔
      (u.role = .admin ∨ u.role = .user) := by
    rw [hw]; cases u.role <;> simp
  have h4 : ∀ call, put_object st username bucket key = .ok call →
      st.config.is_bucket_allowed username bucket = true ∧
      st.config.can_write username = true := by
    intro call hok
    cases hb : st.config.is_bucket_allowed username bucket with
    | false => simp [put_object, check_bucket_access, hb] at hok
    | true =>
      cases hcw : st.config.can_write username with
      | false =>
        simp [put_object, check_bucket_access, check_write_permission, hb, hcw] at hok
      | true => exact ⟨rfl, rfl⟩
  have h2 : u.role = .readonly →
      st.config.is_bucket_allowed username bucket = true →
      put_object st username bucket key =
        .error (.Unauthorized "Write permission denied") := by
    intro hr hv
    have hcw : st.config.can_write username = false := by rw [hw, hr]
    simp [put_object, check_bucket_access, check_write_permission, hv, hcw]
  have h3 : u.role = .readonly →
      ∀ call, put_object st username bucket key ≠ .ok call := by
    intro hr call hok
    have hcw := (h4 call hok).2
    rw [hw, hr] at hcw
    simp at hcw
  exact ⟨h1, h2, h3, h4⟩

/-- Witness for C4 at concrete inputs: the readonly identity bob has
visibility into b1 yet the put is refused with the write-permission reason
before any backend call. -/
theorem write_permission_role_gate_witness :
    cfg0.is_bucket_allowed "bob" "b1" = true ∧
    put_object st0 "bob" "b1" "file.txt" =
      .error (.Unauthorized "Write permission denied") := by
  have h := write_permission_role_gate st0 "bob" "b1" "file.txt" user_bob rfl
  exact ⟨rfl, h.2.1 rfl rfl⟩

/-- Declared payload size of a request: the content-length header value, when
present, readable as a string, and parseable as an unsigned 64-bit integer. -/
def declared_put_length (req : Request) : Option Nat :=
  (req.headers.find? (fun p => p.1 == "content-length")).bind
    (fun p => (header_to_str p.2).bind parse_u64)

/-- Test configuration with a small payload ceiling. -/
def cfg_small : Config := { cfg0 with max_file_size := 100 }

/-- C10: the size-exceeded failure is raised exactly when the method is PUT,
the content-length header is present, readable, parses as a u64, and exceeds
the configured maximum; in every other case (absent, unreadable or
unparseable header, value within the limit, or non-PUT method) validation
performs no size check and reduces to the path-shape check alone. -/
theorem put_size_check_exact (config : Config) (req : Request) :
    (∀ n, req.method = .PUT → declared_put_length req = some n →
      config.max_file_size < n →
      validate_request config req = .error (.InvalidRequest
        ("File size " ++ toString n ++ " exceeds maximum allowed size of " ++
          toString config.max_file_size ++ " bytes"))) ∧
    (¬ (req.method = .PUT ∧ ∃ n, declared_put_length req = some n ∧
        config.max_file_size < n) →
      validate_request config req = check_path req) := by
  constructor
  · intro n hm hd hlt
    unfold validate_request
    rw [hm, if_pos rfl]
    unfold declared_put_length at hd
    cases hf : req.headers.find? (fun p => p.1 == "content-length") with
    | none => rw [hf] at hd; simp at hd
    | some cl =>
      rw [hf] at hd
      simp only [Option.some_bind] at hd
      cases hs : header_to_str cl.2 with
      | none => rw [hs] at hd; simp at hd
      | some s =>
        rw [hs] at hd
        simp only [Option.some_bind] at hd
        simp only [hs, hd]
        rw [if_pos hlt]
  · intro hneg
    unfold validate_request
    by_cases hm : req.method = .PUT
    · rw [hm, if_pos rfl]
      cases hf : req.headers.find? (fun p => p.1 == "content-length") with
      | none => rfl
      | some cl =>
        cases hs : header_to_str cl.2 with
        | none => simp [hs]
        | some s =>
          cases hp : parse_u64 s with
          | none => simp [hs, hp]
          | some n =>
            have hnlt : ¬ config.max_file_size < n := by
              intro hlt
              exact hneg ⟨hm, n, by simp [declared_put_length, hf, hs, hp], hlt⟩
            simp only [hs, hp]
            rw [if_neg hnlt]
    · rw [if_neg hm]

/-- Witness for C10 at concrete inputs: a PUT declaring 200 bytes against a
100-byte ceiling is refused with the size message, and a PUT whose declared
length does not parse falls through to the path check. -/
theorem put_size_check_exact_witness :
    validate_request cfg_small
      ⟨Method.PUT, "/b1/k", [("content-length", [50, 48, 48])]⟩ =
      .error (.InvalidRequest
        "File size 200 exceeds maximum allowed size of 100 bytes") ∧
    validate_request cfg_small
      ⟨Method.PUT, "/b1/k", [("content-length", [49, 50, 120])]⟩ =
      check_path ⟨Method.PUT, "/b1/k", [("content-length", [49, 50, 120])]⟩ := by
  constructor
  · have h := (put_size_check_exact cfg_small
      ⟨Method.PUT, "/b1/k", [("content-length", [50, 48, 48])]⟩).1 200 rfl
      (by decide) (by decide)
    exact h
  · exact (put_size_check_exact cfg_small
      ⟨Method.PUT, "/b1/k", [("content-length", [49, 50, 120])]⟩).2
      (fun h => by
        obtain ⟨-, n, hn, -⟩ := h
        exact Option.noConfusion hn)

/-- Request presenting no x-api-key header at all. -/
def req_no_key : Request := ⟨.GET, "/b1", []⟩

/-- Request presenting an x-api-key matching no identity (the bytes of K1). -/
def req_unknown_key : Request := ⟨.GET, "/b1", [("x-api-key", [75, 49])]⟩

/-- Request failing structural path validation (three segments). -/
def req_bad_path : Request := ⟨.GET, "/a/b/c", []⟩

/-- C5 counterexample: both invalid-credential requests draw status 401, but
the response bodies differ (no API key provided versus invalid API key), so
the gateway does not return one single generic failure message in all
invalid-credential cases as the claim states. -/
theorem invalid_credential_messages_differ :
    (middleware_response cfg0 0 [] req_no_key next0).status = 401 ∧
    (middleware_response cfg0 0 [] req_unknown_key next0).status = 401 ∧
    (middleware_response cfg0 0 [] req_no_key next0).body ≠
      (middleware_response cfg0 0 [] req_unknown_key next0).body := by
  refine ⟨rfl, rfl, by decide⟩

/-- C5 as amended: both invalid-credential cases fail with the Unauthorized
kind carrying status 401, but with case-specific messages: a missing (or
unreadable) x-api-key draws the no-API-key message and a key matching no
identity draws the invalid-API-key message. -/
theorem invalid_credential_unauthorized_responses (config : Config) (now : Nat)
    (rl : List (String × List Nat)) (req : Request)
    (next : Request → AuthState → Response)
    (hv : validate_request config req = .ok ()) :
    (get_api_key req = none →
      (auth_middleware config now rl req next).1 =
        .error (.Unauthorized "No API key provided")) ∧
    (∀ k, get_api_key req = some k → config.find_user_by_api_key k = none →
      (auth_middleware config now rl req next).1 =
        .error (.Unauthorized "Invalid API key")) ∧
    (∀ m, (AppError.Unauthorized m).into_response.status = 401) := by
  refine ⟨?_, ?_, fun m => rfl⟩
  · intro hk
    unfold auth_middleware
    simp only [hv, hk]
  · intro k hk hu
    unfold auth_middleware
    simp only [hv, hk, hu]

/-- Witness for C5 amended at concrete inputs. -/
theorem invalid_credential_unauthorized_responses_witness :
    (auth_middleware cfg0 0 [] req_no_key next0).1 =
      .error (.Unauthorized "No API key provided") ∧
    (auth_middleware cfg0 0 [] req_unknown_key next0).1 =
      .error (.Unauthorized "Invalid API key") := by
  have h1 := invalid_credential_unauthorized_responses cfg0 0 [] req_no_key next0 rfl
  have h2 := invalid_credential_unauthorized_responses cfg0 0 [] req_unknown_key next0 rfl
  exact ⟨h1.1 rfl, h2.2.1 "K1" rfl rfl⟩

/-- Search skips a leading block whose elements all refuse the predicate. -/
theorem find?_append_all_neg {α : Type} (p : α → Bool) (l1 l2 : List α)
    (h : ∀ x ∈ l1, p x = false) :
    (l1 ++ l2).find? p = l2.find? p := by
  induction l1 with
  | nil => rfl
  | cons a l ih =>
    rw [List.cons_append, List.find?_cons_of_neg]
    · exact ih (fun x hx => h x (List.mem_cons_of_mem a hx))
    · simp [h a (List.mem_cons_self a l)]

/-- Lookup after insert of the same name yields the inserted value. -/
theorem header_get_insert_self (hs : List (String × String)) (k v : String) :
    header_get (header_insert hs k v) k = some v := by
  unfold header_get header_insert
  rw [find?_append_all_neg]
  · simp [List.find?_cons]
  · intro x hx
    have hx2 := (List.mem_filter.mp hx).2
    simpa using hx2

/-- Lookup of a different name is unchanged by an insert. -/
theorem header_get_insert_other (hs : List (String × String)) (k v k2 : String)
    (h : ¬ k = k2) :
    header_get (header_insert hs k v) k2 = header_get hs k2 := by
  unfold header_get header_insert
  have hknot : (k == k2) = false := by simpa using h
  induction hs with
  | nil =>
    simp only [List.filter_nil, List.nil_append, List.find?_cons, hknot]
  | cons a hs ih =>
    by_cases ha2 : a.1 = k2
    · have hbeq : (a.1 == k2) = true := by simpa using ha2
      have hak : (a.1 != k) = true := by
        simp only [bne_iff_ne, ne_eq, ha2]
        exact fun hh => h hh.symm
      simp only [List.filter_cons, hak, if_true, List.cons_append,
        List.find?_cons, hbeq]
    · have hbeq : (a.1 == k2) = false := by simpa using ha2
      by_cases hak : a.1 = k
      · have hkne : (a.1 != k) = false := by simpa using hak
        simp only [List.filter_cons, hkne, if_false, List.find?_cons, hbeq]
        exact ih
      · have hkb : (a.1 != k) = true := by simpa using hak
        simp only [List.filter_cons, hkb, if_true, List.cons_append,
          List.find?_cons, hbeq]
        exact ih

/-- The four security headers are present on any response after the insert
sequence of the middleware success path. -/
theorem add_secure_headers_get (resp : Response) :
    header_get (add_secure_headers resp).headers "X-Content-Type-Options" =
      some "nosniff" ∧
    header_get (add_secure_headers resp).headers "X-Frame-Options" =
      some "DENY" ∧
    header_get (add_secure_headers resp).headers "X-XSS-Protection" =
      some "1; mode=block" ∧
    header_get (add_secure_headers resp).headers "Strict-Transport-Security" =
      some "max-age=31536000; includeSubDomains" := by
  unfold add_secure_headers
  refine ⟨?_, ?_, ?_, ?_⟩
  · rw [header_get_insert_other _ _ _ _ (by decide),
      header_get_insert_other _ _ _ _ (by decide),
      header_get_insert_other _ _ _ _ (by decide),
      header_get_insert_self]
  · rw [header_get_insert_other _ _ _ _ (by decide),
      header_get_insert_other _ _ _ _ (by decide),
      header_get_insert_self]
  · rw [header_get_insert_other _ _ _ _ (by decide),
      header_get_insert_self]
  · rw [header_get_insert_self]

/-- C6 counterexample: the response the gateway produces for a structural
validation failure is the 400 error conversion, and it does not carry the
security header set, contradicting the claim that every response, including
validation failures, carries it. -/
theorem security_headers_missing_on_validation_failure :
    (middleware_response cfg0 0 [] req_bad_path next0).status = 400 ∧
    header_get (middleware_response cfg0 0 [] req_bad_path next0).headers
      "X-Content-Type-Options" = none ∧
    header_get (middleware_response cfg0 0 [] req_bad_path next0).headers
      "Strict-Transport-Security" = none :=
  ⟨rfl, rfl, rfl⟩

/-- C6 as amended: the security header set is attached to every response the
middleware produces after successful admission (so to every downstream
response, success or handler failure), while a middleware-stage failure
(validation, authentication, rate limit) is converted to an error response
carrying only the content-type header. -/
theorem security_headers_on_admitted_responses (config : Config) (now : Nat)
    (rl : List (String × List Nat)) (req : Request)
    (next : Request → AuthState → Response) (r : Response)
    (h : (auth_middleware config now rl req next).1 = .ok r) :
    header_get r.headers "X-Content-Type-Options" = some "nosniff" ∧
    header_get r.headers "X-Frame-Options" = some "DENY" ∧
    header_get r.headers "X-XSS-Protection" = some "1; mode=block" ∧
    header_get r.headers "Strict-Transport-Security" =
      some "max-age=31536000; includeSubDomains" ∧
    (∀ e : AppError, e.into_response.headers =
      [("content-type", "application/json")]) := by
  have hr : ∃ resp, r = add_secure_headers resp := by
    unfold auth_middleware at h
    cases hv : validate_request config req with
    | error e => simp only [hv] at h; exact absurd h (by simp)
    | ok u =>
      simp only [hv] at h
      cases hk : get_api_key req with
      | none => simp only [hk] at h; exact absurd h (by simp)
      | some k =>
        simp only [hk] at h
        cases hu : config.find_user_by_api_key k with
        | none => simp only [hu] at h; exact absurd h (by simp)
        | some p =>
          obtain ⟨username, user⟩ := p
          simp only [hu] at h
          by_cases hl : (rate_check now rl username).1 = true
          · simp only [hl, if_true] at h
            exact absurd h (by simp)
          · simp only [Bool.not_eq_true] at hl
            simp only [hl, Bool.false_eq_true, if_false] at h
            exact ⟨next req { username := username, role := user.role.debugStr },
              (Except.ok.inj h).symm⟩
  obtain ⟨resp, rfl⟩ := hr
  have hg := add_secure_headers_get resp
  exact ⟨hg.1, hg.2.1, hg.2.2.1, hg.2.2.2, fun e => rfl⟩

/-- Witness for C6 amended at a concrete admitted request. -/
theorem security_headers_on_admitted_responses_witness :
    header_get (add_secure_headers ⟨200, [], "ok"⟩).headers
      "X-Content-Type-Options" = some "nosniff" ∧
    header_get (add_secure_headers ⟨200, [], "ok"⟩).headers
      "Strict-Transport-Security" = some "max-age=31536000; includeSubDomains" := by
  have h := security_headers_on_admitted_responses cfg0 0 []
    ⟨.GET, "/b1", [("x-api-key", [115, 101, 99, 114, 101, 116])]⟩ next0
    (add_secure_headers ⟨200, [], "ok"⟩) rfl
  exact ⟨h.1, h.2.2.2.1⟩

/-- Aggregation across pages: while every page carries a continuation token
the loop keeps extending the accumulator, and the first token-free page ends
the loop with the concatenation of all consumed page contents. -/
theorem list_objects_loop_append {α : Type} (pre rest : List (ListPage α))
    (p : ListPage α) (acc : List α)
    (hpre : ∀ q ∈ pre, q.next_continuation_token ≠ none)
    (hp : p.next_continuation_token = none) :
    list_objects_loop (pre ++ p :: rest) acc =
      some (acc ++ ((pre ++ [p]).map (fun q => q.contents.getD [])).flatten) := by
  induction pre generalizing acc with
  | nil =>
    simp only [List.nil_append, list_objects_loop, hp]
    simp
  | cons q pre ih =>
    cases hqt : q.next_continuation_token with
    | none => exact absurd hqt (hpre q (by simp))
    | some t =>
      simp only [List.cons_append, list_objects_loop, hqt, List.append_eq]
      rw [ih (acc ++ q.contents.getD [])
        (fun x hx => hpre x (List.mem_cons_of_mem q hx))]
      simp

/-- C8: with the backend modelled as its page sequence, the aggregated
listing is exactly the in-order concatenation of the consumed page contents
(hence N entries in total for N objects across the pages, no duplication and
no reordering), the loop consumes pages up to and including the first one
without a next continuation token, and it does not finish while every page
returns a token. -/
theorem list_aggregation_faithful {α : Type} (pre rest : List (ListPage α))
    (p : ListPage α) (acc : List α)
    (hpre : ∀ q ∈ pre, q.next_continuation_token ≠ none)
    (hp : p.next_continuation_token = none) :
    (list_objects_loop (pre ++ p :: rest) acc =
      some (acc ++ ((pre ++ [p]).map (fun q => q.contents.getD [])).flatten)) ∧
    (((pre ++ [p]).map (fun q => q.contents.getD [])).flatten.length =
      ((pre ++ [p]).map (fun q => (q.contents.getD []).length)).sum) ∧
    (∀ (qs : List (ListPage α)) (a : List α),
      (∀ q ∈ qs, q.next_continuation_token ≠ none) →
      list_objects_loop qs a = none) := by
  refine ⟨list_objects_loop_append pre rest p acc hpre hp, ?_, ?_⟩
  · simp only [List.length_flatten, List.map_map]
    rfl
  · intro qs
    induction qs with
    | nil => intro a _; rfl
    | cons q qs ih =>
      intro a hqs
      cases hqt : q.next_continuation_token with
      | none => exact absurd hqt (hqs q (by simp))
      | some t =>
        simp only [list_objects_loop, hqt]
        exact ih _ (fun x hx => hqs x (List.mem_cons_of_mem q hx))

/-- Witness for C8 at a concrete page sequence: two consumed pages holding
three objects in total, a trailing unconsumed page, and the aggregate in
backend order. -/
theorem list_aggregation_faithful_witness :
    list_objects_loop ([⟨some [1, 2], some "t"⟩, ⟨some [3], none⟩,
      ⟨some [9], none⟩] : List (ListPage Nat)) [] = some [1, 2, 3] := by
  have h := (list_aggregation_faithful [⟨some [1, 2], some "t"⟩]
    [⟨some [9], none⟩] ⟨some [3], none⟩ [] (by decide) rfl).1
  simpa using h

/-- Limiter decisions distribute over an appended call sequence. -/
theorem run_limiter_append (s us vs : List Nat) :
    run_limiter s (us ++ vs) =
      run_limiter s us ++ run_limiter (run_state s us) vs := by
  induction us generalizing s with
  | nil => rfl
  | cons t us ih =>
    simp only [List.cons_append, run_limiter, run_state, List.append_eq]
    rw [ih]

/-- Limiter state after an appended call sequence. -/
theorem run_state_append (s us vs : List Nat) :
    run_state s (us ++ vs) = run_state (run_state s us) vs := by
  induction us generalizing s with
  | nil => rfl
  | cons t us ih =>
    simp only [List.cons_append, run_state, List.append_eq]
    rw [ih]

/-- Core invariant of the sliding window: on a nondecreasing call sequence in
which every trailing 60-second window holds at most 100 calls, every call is
admitted, and the recorded state purged at any later instant is exactly the
set of calls inside that instant's window. -/
theorem limiter_allowed_invariant (ts : List Nat)
    (hs : ts.Pairwise (· ≤ ·)) (hb : window_bound ts) :
    run_limiter [] ts = List.replicate ts.length false ∧
    ∀ t, (∀ s ∈ ts, s ≤ t) →
      purge t (run_state [] ts) = ts.filter (fun s => t - s < 60) := by
  induction ts using List.reverseRecOn with
  | nil => exact ⟨rfl, fun t _ => rfl⟩
  | append_singleton us u ih =>
    have hps := List.pairwise_append.mp hs
    have hs1 : us.Pairwise (· ≤ ·) := hps.1
    have hle : ∀ a ∈ us, a ≤ u := fun a ha => hps.2.2 a ha u (by simp)
    have hb1 : window_bound us := by
      intro k hk
      have h2 := hb k (by simp; omega)
      rw [List.take_append_of_le_length (by omega)] at h2
      rw [List.getD_append us [u] 0 k hk] at h2
      exact h2
    obtain ⟨ihr, ihs⟩ := ih hs1 hb1
    have hpurge : purge u (run_state [] us) = us.filter (fun s => u - s < 60) :=
      ihs u hle
    have hcount : ((us ++ [u]).filter (fun s => u - s < 60)).length ≤ 100 := by
      have h2 := hb us.length (by simp)
      rw [List.take_of_length_le (by simp)] at h2
      rw [List.getD_append_right us [u] 0 us.length (le_refl _)] at h2
      simpa using h2
    have hlen : (us.filter (fun s => u - s < 60)).length ≤ 99 := by
      have h3 : ((us.filter (fun s => u - s < 60)) ++
          [u].filter (fun s => u - s < 60)).length ≤ 100 := by
        rw [← List.filter_append]
        exact hcount
      simp at h3
      omega
    have hfst : is_rate_limited u (run_state [] us) =
        (false, us.filter (fun s => u - s < 60) ++ [u]) := by
      simp only [is_rate_limited]
      rw [hpurge, if_neg (by omega)]
    constructor
    · rw [run_limiter_append, ihr]
      have hrl1 : run_limiter (run_state [] us) [u] = [false] := by
        simp only [run_limiter, hfst]
      rw [hrl1]
      rw [show (us ++ [u]).length = us.length + 1 by simp, List.replicate_succ']
    · intro t ht
      have htu : u ≤ t := ht u (by simp)
      have htus : ∀ s ∈ us, s ≤ t := fun s hsm => ht s (by simp [hsm])
      rw [run_state_append]
      have hst : run_state (run_state [] us) [u] =
          us.filter (fun s => u - s < 60) ++ [u] := by
        simp only [run_state, hfst]
      rw [hst]
      unfold purge
      simp only [List.filter_append, List.filter_filter]
      have hcong : List.filter
          (fun a => decide (t - a < 60) && decide (u - a < 60)) us =
          List.filter (fun s => decide (t - s < 60)) us := by
        apply List.filter_congr
        intro s hsm
        have h1 : s ≤ u := hle s hsm
        by_cases hts : t - s < 60
        · have hus : u - s < 60 := by omega
          simp [hts, hus]
        · simp [hts]
      rw [hcong]

/-- C1: each admit call purges entries older than 60 seconds, refuses without
recording when the remaining count reaches 100, and otherwise records the
call; consequently on a nondecreasing call sequence with at most 100 calls in
every trailing 60-second window every call is admitted, and a 101st call
falling in the same window as 100 admitted calls is refused. -/
theorem rate_limiter_sliding_window (ts : List Nat) (t : Nat)
    (hsort : ts.Pairwise (· ≤ ·)) (hb : window_bound ts) :
    (∀ now reqs, is_rate_limited now reqs =
      (if 100 ≤ (purge now reqs).length then (true, purge now reqs)
       else (false, purge now reqs ++ [now]))) ∧
    run_limiter [] ts = List.replicate ts.length false ∧
    (ts.length = 100 → (∀ s ∈ ts, s ≤ t ∧ t - s < 60) →
      run_limiter [] (ts ++ [t]) = List.replicate 100 false ++ [true]) := by
  obtain ⟨h1, h2⟩ := limiter_allowed_invariant ts hsort hb
  refine ⟨fun now reqs => rfl, h1, ?_⟩
  intro hlen hwin
  have hpt : purge t (run_state [] ts) = ts.filter (fun s => t - s < 60) :=
    h2 t (fun s hs => (hwin s hs).1)
  have hft : ts.filter (fun s => decide (t - s < 60)) = ts :=
    List.filter_eq_self.mpr (fun a ha => by simpa using (hwin a ha).2)
  have hlim : run_limiter (run_state [] ts) [t] = [true] := by
    have hfst : is_rate_limited t (run_state [] ts) =
        (true, ts) := by
      simp only [is_rate_limited]
      rw [hpt, hft, if_pos (by omega)]
    simp only [run_limiter, hfst]
  rw [run_limiter_append, h1, hlen, hlim]

/-- Witness for C1 at a concrete call sequence: one hundred calls at the same
instant are all admitted and the 101st inside the same window is limited. -/
theorem rate_limiter_sliding_window_witness :
    run_limiter [] (List.replicate 100 0) = List.replicate 100 false ∧
    run_limiter [] (List.replicate 100 0 ++ [0]) =
      List.replicate 100 false ++ [true] := by
  have h := rate_limiter_sliding_window (List.replicate 100 0) 0
    (by decide) (by decide)
  exact ⟨h.2.1, h.2.2 (by decide) (by decide)⟩
